import Mathlib

/-!
Formal model (shallow embedding) of the `Cache` component from `src/cache.ts`
of the roleup/redis TypeScript library.

Modelling conventions:
* Strings are Lean `String`; a JS argument that may fail the lodash `isString`
  check is `Option String` (`none` models a non-string value).
* The redis store is an association list of entries carrying an absolute
  expiry instant; `Store.get` at instant `now` only sees entries with
  `now < expireAt`, which models redis key expiry (`setex`).
* Each asynchronous cache operation becomes a pure function.  Besides the
  operation arguments it receives the environmental outcome of its single
  redis call (`callFail : Option String`, `none` = the call succeeds,
  `some msg` = the call rejects with an error whose `.message` is `msg`)
  and a `ScanScript` describing what the key-scan stream used by
  `invalidate` emits, should the reconnection hook run it.
* A promise result is an `Outcome`: fulfilled (`ok`), rejected (`thrown`),
  or never settles (`hung`).  The `hung` case arises from `invalidate`: the
  `data` handler is an `async` closure whose rejection is not connected to
  the surrounding `new Promise`, so a failing `redis.del` leaves the stream
  paused forever and the promise pending.
* The caller-supplied codec is `stringifyForCache : T → Option String`
  (`none` models an encoder returning a non-string) and
  `parseFromCache : String → Except String T` (a decoder that may throw).
-/

namespace RedisSpec

/-- PREFIX_TERMINATOR from src/cache.ts line 23: appended to every namespace
so that a wildcard scan can be used for invalidating the cache. -/
def PRE_TERMINATOR : String := "--<<$$PRE_TERM$$>>--"

/-- Lower-case needle used by suppressConnectionError to recognise a
connection-down failure; the apostrophe is written as character 39. -/
def connDownNeedle : String :=
  "stream isn" ++ String.singleton (Char.ofNat 39) ++ "t writeable"

/-- Model of JS String.prototype.toLowerCase (ASCII case mapping). -/
def strToLower (s : String) : String := ⟨s.data.map Char.toLower⟩

/-- A stored redis entry: key, string value, absolute expiry instant. -/
structure Entry where
  key : String
  value : String
  expireAt : Nat
  deriving DecidableEq

/-- The external redis store state. -/
abbrev Store := List Entry

/-- Redis GET at instant `now`: the value of the first entry for the key,
provided the entry has not expired. -/
def Store.get : Store → Nat → String → Option String
  | [], _, _ => none
  | e :: rest, now, k =>
    if e.key = k then (if now < e.expireAt then some e.value else none)
    else Store.get rest now k

/-- Redis DEL of a single key. -/
def Store.del (st : Store) (k : String) : Store :=
  st.filter (fun e => decide (e.key ≠ k))

/-- Redis SETEX at instant `now` with a relative ttl. -/
def Store.setex (st : Store) (now ttl : Nat) (k v : String) : Store :=
  ⟨k, v, now + ttl⟩ :: Store.del st k

/-- Redis DEL of a batch of keys. -/
def Store.delKeys (st : Store) (ks : List String) : Store :=
  st.filter (fun e => decide (e.key ∉ ks))

/-- The keys a scan with match pattern `p ++ "*"` can return at instant
`now`: keys of unexpired entries whose key starts with `p`. -/
def Store.liveKeysWithPre (st : Store) (now : Nat) (p : String) : List String :=
  (st.filter (fun e => decide (now < e.expireAt) && decide (p.data <+: e.key.data))).map
    (fun e => e.key)

/-- The this.config record as stored by the constructor (src/cache.ts
lines 46-51).  `pre` models `config.prefix` after the constructor ran,
i.e. the caller-supplied namespace with PRE_TERMINATOR already appended. -/
structure Config (T : Type) where
  pre : String
  ttlSec : Nat
  resetOnReconnection : Bool
  stringifyForCache : T → Option String
  parseFromCache : String → Except String T

/-- The mutable state of one Cache instance. -/
structure Cache (T : Type) where
  config : Config T
  enabled : Bool
  invalidateOnConnection : Bool

variable {T : Type}

/-- Condition from suppressConnectionError (src/cache.ts line 71):
`error && error.message && error.message.toLowerCase().includes(needle)`.
The truthiness test on `error.message` is `msg ≠ ""`. -/
def msgIndicatesConnDown (msg : String) : Prop :=
  msg ≠ "" ∧ connDownNeedle.data <:+: (strToLower msg).data

instance (msg : String) : Decidable (msgIndicatesConnDown msg) := by
  unfold msgIndicatesConnDown; infer_instance

/-- suppressConnectionError (src/cache.ts lines 69-77): a connection-down
message sets invalidateOnConnection and yields null; any other error is
re-thrown unchanged. -/
def Cache.suppressConnectionError (c : Cache T) (msg : String) : Except String (Cache T) :=
  if msgIndicatesConnDown msg then .ok { c with invalidateOnConnection := true }
  else .error msg

/-- What the scan stream emits during one invalidate call: the data events in
order (each with the environmental outcome of the `redis.del` issued by the
data handler, `none` = the del succeeds) followed by the terminal event
(`none` = the end event, `some msg` = an error event). -/
structure ScanScript where
  rounds : List (List String × Option String)
  terminal : Option String

/-- How the promise built by invalidate settles. -/
inductive InvOutcome where
  | done
  | failed (msg : String)
  | hung
  deriving DecidableEq

/-- Result of one invalidate call: how its promise settles, the resulting
store, and the key batches passed to `redis.del`, in order. -/
structure InvResult where
  outcome : InvOutcome
  store : Store
  delCalls : List (List String)
  deriving DecidableEq

/-- Processing of the stream events by invalidate (src/cache.ts lines
190-203).  Each data event runs pause / `redis.del(...resultKeys)` / resume;
the del call is issued for every batch, also an empty one.  A rejected del is
not connected to the surrounding promise: the handler stops before resume,
the stream stays paused, and the promise never settles (`hung`).  An error
event rejects the promise; the end event resolves it. -/
def runRounds : Store → List (List String × Option String) → Option String → InvResult
  | st, [], t => ⟨match t with | none => .done | some m => .failed m, st, []⟩
  | st, (keys, o) :: rest, t =>
    match o with
    | some _ => ⟨.hung, st, [keys]⟩
    | none =>
      let r := runRounds (Store.delKeys st keys) rest t
      ⟨r.outcome, r.store, keys :: r.delCalls⟩

/-- invalidate (src/cache.ts lines 187-204). -/
def Cache.invalidate (c : Cache T) (st : Store) (script : ScanScript) : InvResult :=
  if !c.enabled then ⟨.done, st, []⟩
  else runRounds st script.rounds script.terminal

/-- How the invalidateOnReconnection hook returned. -/
inductive HookOut where
  | passed
  | reset
  | errored (msg : String)
  | hung
  deriving DecidableEq

/-- Result of the invalidateOnReconnection hook. -/
structure HookResult (T : Type) where
  out : HookOut
  cache : Cache T
  store : Store

/-- invalidateOnReconnection (src/cache.ts lines 84-94): when
resetOnReconnection is set and a connection fault was recorded, clear the
flag, invalidate the whole namespace and return null; otherwise pass the
original result through. -/
def Cache.invalidateOnReconnection (c : Cache T) (st : Store) (script : ScanScript) :
    HookResult T :=
  if c.config.resetOnReconnection && c.invalidateOnConnection then
    let c2 := { c with invalidateOnConnection := false }
    let r := Cache.invalidate c2 st script
    match r.outcome with
    | .done => ⟨.reset, c2, r.store⟩
    | .failed m => ⟨.errored m, c2, r.store⟩
    | .hung => ⟨.hung, c2, r.store⟩
  else ⟨.passed, c, st⟩

/-- How the promise returned by a scalar operation settles; `ok none` is a
fulfilled promise carrying null / undefined. -/
inductive Outcome (T : Type) where
  | ok (v : Option T)
  | thrown (msg : String)
  | hung

/-- Result of one scalar operation: its promise outcome, the cache state
afterwards and the store afterwards. -/
structure ScalarResult (T : Type) where
  ret : Outcome T
  cache : Cache T
  store : Store

/-- JS check `overrideTtlSec && (!isInteger(overrideTtlSec) ||
overrideTtlSec <= 0)` (src/cache.ts line 131); 0 is falsy. -/
def overrideInvalid (o : Option Int) : Bool :=
  match o with
  | none => false
  | some n => if n = 0 then false else decide (n ≤ 0)

/-- JS expression `overrideTtlSec && isInteger(overrideTtlSec) ?
overrideTtlSec : this.config.ttlSec` (src/cache.ts line 135). -/
def effectiveTtl (dflt : Nat) (o : Option Int) : Nat :=
  match o with
  | none => dflt
  | some n => if n = 0 then dflt else n.toNat

/-- set (src/cache.ts lines 118-141). -/
def Cache.set (c : Cache T) (st : Store) (now : Nat) (key : Option String) (inst : T)
    (overrideTtlSec : Option Int) (callFail : Option String) (script : ScanScript) :
    ScalarResult T :=
  if !c.enabled then ⟨.ok none, c, st⟩
  else
    match key with
    | none => ⟨.thrown "key must be a string with length", c, st⟩
    | some k =>
      if k.length = 0 then ⟨.thrown "key must be a string with length", c, st⟩
      else
        match c.config.stringifyForCache inst with
        | none => ⟨.thrown "value must be a string with length", c, st⟩
        | some v =>
          if v.length = 0 then ⟨.thrown "value must be a string with length", c, st⟩
          else if overrideInvalid overrideTtlSec then
            ⟨.thrown "overrideTtlSec must be an integer gte 0", c, st⟩
          else
            let ttl := effectiveTtl c.config.ttlSec overrideTtlSec
            match callFail with
            | some msg =>
              match Cache.suppressConnectionError c msg with
              | .ok c2 => ⟨.ok none, c2, st⟩
              | .error m => ⟨.thrown m, c, st⟩
            | none =>
              let st2 := Store.setex st now ttl (c.config.pre ++ k) v
              let h := Cache.invalidateOnReconnection c st2 script
              match h.out with
              | .passed => ⟨.ok none, h.cache, h.store⟩
              | .reset => ⟨.ok none, h.cache, h.store⟩
              | .errored m =>
                match Cache.suppressConnectionError h.cache m with
                | .ok c2 => ⟨.ok none, c2, h.store⟩
                | .error m2 => ⟨.thrown m2, h.cache, h.store⟩
              | .hung => ⟨.hung, h.cache, h.store⟩

/-- get (src/cache.ts lines 149-161).  The raw read happens first, then the
reconnection hook runs on it, then the truthiness check decides whether
parseFromCache is applied; the final catch wraps the whole chain. -/
def Cache.get (c : Cache T) (st : Store) (now : Nat) (key : Option String)
    (callFail : Option String) (script : ScanScript) : ScalarResult T :=
  if !c.enabled then ⟨.ok none, c, st⟩
  else
    match key with
    | none => ⟨.thrown "key must be a string with length", c, st⟩
    | some k =>
      if k.length = 0 then ⟨.thrown "key must be a string with length", c, st⟩
      else
        match callFail with
        | some msg =>
          match Cache.suppressConnectionError c msg with
          | .ok c2 => ⟨.ok none, c2, st⟩
          | .error m => ⟨.thrown m, c, st⟩
        | none =>
          let raw := Store.get st now (c.config.pre ++ k)
          let h := Cache.invalidateOnReconnection c st script
          match h.out with
          | .reset => ⟨.ok none, h.cache, h.store⟩
          | .passed =>
            match raw with
            | none => ⟨.ok none, h.cache, h.store⟩
            | some s =>
              if s.length = 0 then ⟨.ok none, h.cache, h.store⟩
              else
                match c.config.parseFromCache s with
                | .ok t => ⟨.ok (some t), h.cache, h.store⟩
                | .error m =>
                  match Cache.suppressConnectionError h.cache m with
                  | .ok c2 => ⟨.ok none, c2, h.store⟩
                  | .error m2 => ⟨.thrown m2, h.cache, h.store⟩
          | .errored m =>
            match Cache.suppressConnectionError h.cache m with
            | .ok c2 => ⟨.ok none, c2, h.store⟩
            | .error m2 => ⟨.thrown m2, h.cache, h.store⟩
          | .hung => ⟨.hung, h.cache, h.store⟩

/-- del (src/cache.ts lines 169-180). -/
def Cache.del (c : Cache T) (st : Store) (key : Option String)
    (callFail : Option String) (script : ScanScript) : ScalarResult T :=
  if !c.enabled then ⟨.ok none, c, st⟩
  else
    match key with
    | none => ⟨.thrown "key must be a string with length", c, st⟩
    | some k =>
      if k.length = 0 then ⟨.thrown "key must be a string with length", c, st⟩
      else
        match callFail with
        | some msg =>
          match Cache.suppressConnectionError c msg with
          | .ok c2 => ⟨.ok none, c2, st⟩
          | .error m => ⟨.thrown m, c, st⟩
        | none =>
          let st2 := Store.del st (c.config.pre ++ k)
          let h := Cache.invalidateOnReconnection c st2 script
          match h.out with
          | .passed => ⟨.ok none, h.cache, h.store⟩
          | .reset => ⟨.ok none, h.cache, h.store⟩
          | .errored m =>
            match Cache.suppressConnectionError h.cache m with
            | .ok c2 => ⟨.ok none, c2, h.store⟩
            | .error m2 => ⟨.thrown m2, h.cache, h.store⟩
          | .hung => ⟨.hung, h.cache, h.store⟩

/-- enable (src/cache.ts lines 99-101). -/
def Cache.enable (c : Cache T) : Cache T := { c with enabled := true }

/-- disable (src/cache.ts lines 106-108). -/
def Cache.disable (c : Cache T) : Cache T := { c with enabled := false }

/-- A fault-free scan of the given store: one data batch holding every live
key of the namespace, the bulk delete succeeding, then the end event. -/
def honestScript (st : Store) (now : Nat) (p : String) : ScanScript :=
  ⟨[(Store.liveKeysWithPre st now p, none)], none⟩

/-- The store key used for logical key `k` under the user namespace `p`:
the constructor stores `p ++ PRE_TERMINATOR` in config.prefix and
set/get/del append the logical key to it. -/
def effectiveScalarKey (p k : String) : String := p ++ PRE_TERMINATOR ++ k

/-- The string contains the reserved terminator (constructor check,
src/cache.ts line 42). -/
def containsTerminator (s : String) : Prop := PRE_TERMINATOR.data <:+: s.data

instance (s : String) : Decidable (containsTerminator s) := by
  unfold containsTerminator; infer_instance

/-- PRE_TERMINATOR occurs in `p ++ PRE_TERMINATOR` only as its final
segment: at no position before the length of `p`. -/
def termOnlyAtEnd (p : String) : Prop :=
  ∀ i < p.data.length, ¬ PRE_TERMINATOR.data <+: (p.data ++ PRE_TERMINATOR.data).drop i

instance (p : String) : Decidable (termOnlyAtEnd p) := by
  unfold termOnlyAtEnd; infer_instance

/-- The same cache with another decode function. -/
def Cache.withParse (c : Cache T) (p : String → Except String T) : Cache T :=
  { c with config := { c.config with parseFromCache := p } }

/-- Observable equality of two scalar results, the codec closures held
inside the cache state excluded. -/
def sameObs (r₁ r₂ : ScalarResult T) : Prop :=
  r₁.ret = r₂.ret ∧ r₁.store = r₂.store ∧ r₁.cache.enabled = r₂.cache.enabled ∧
    r₁.cache.invalidateOnConnection = r₂.cache.invalidateOnConnection

/-! Concrete instances used by witnesses and counterexamples. -/

/-- Identity encoder over string instances. -/
def idEnc : String → Option String := fun s => some s

/-- Identity decoder over string instances. -/
def idDec : String → Except String String := fun s => .ok s

/-- A cache over namespace "something" with ttl 10, as in the repository
integration tests. -/
def baseCache : Cache String := ⟨⟨"something" ++ PRE_TERMINATOR, 10, true, idEnc, idDec⟩, true, false⟩

/-- A scan script for runs in which the scan stream is never started. -/
def noScan : ScanScript := ⟨[], none⟩

/-- A connection-down error message. -/
def connMsg : String := "error: " ++ connDownNeedle

/-- A cache whose encoder always yields the empty string. -/
def emptyEncCache : Cache String :=
  ⟨⟨"something" ++ PRE_TERMINATOR, 10, true, fun _ => some "", idDec⟩, true, false⟩

/-- A store holding one unexpired entry under namespace "something". -/
def cexStore : Store := [⟨"something" ++ PRE_TERMINATOR ++ "k", "old", 99⟩]

/-! Helper lemmas. -/

theorem strLength_eq_zero_iff (s : String) : s.length = 0 ↔ s = "" := by
  constructor
  · intro h
    apply String.ext
    exact List.length_eq_zero.mp h
  · intro h; subst h; rfl

theorem empty_string_length : ("" : String).length = 0 := rfl

theorem strLength_ne_zero {s : String} (h : s ≠ "") : s.length ≠ 0 :=
  fun h0 => h ((strLength_eq_zero_iff s).mp h0)

/-- Reading back the key just written by setex, before its expiry. -/
theorem store_get_setex_self (st : Store) (now ttl t : Nat) (k v : String) :
    Store.get (Store.setex st now ttl k v) t k =
      if t < now + ttl then some v else none := by
  simp [Store.setex, Store.get]

/-! C3 -/

/-- C3: on an enabled Cache with a valid key (and, for set, a valid encoded
value and ttl override), a failing store call whose error message contains
the connection-down substring makes set, get and del set
invalidateOnConnection and resolve with void or absent; a failing store call
with any other message makes the operation reject with that same error. -/
theorem cache_C3 {T : Type} (c : Cache T) (st : Store) (now : Nat) (k v : String) (inst : T)
    (o : Option Int) (msg : String) (script : ScanScript)
    (hE : c.enabled = true) (hk : k ≠ "")
    (henc : c.config.stringifyForCache inst = some v) (hv : v ≠ "")
    (ho : overrideInvalid o = false) :
    (msgIndicatesConnDown msg →
      Cache.set c st now (some k) inst o (some msg) script =
        ⟨.ok none, { c with invalidateOnConnection := true }, st⟩ ∧
      Cache.get c st now (some k) (some msg) script =
        ⟨.ok none, { c with invalidateOnConnection := true }, st⟩ ∧
      Cache.del c st (some k) (some msg) script =
        ⟨.ok none, { c with invalidateOnConnection := true }, st⟩) ∧
    (¬ msgIndicatesConnDown msg →
      Cache.set c st now (some k) inst o (some msg) script = ⟨.thrown msg, c, st⟩ ∧
      Cache.get c st now (some k) (some msg) script = ⟨.thrown msg, c, st⟩ ∧
      Cache.del c st (some k) (some msg) script = ⟨.thrown msg, c, st⟩) := by
  have hkl : ¬ k.length = 0 := strLength_ne_zero hk
  have hvl : ¬ v.length = 0 := strLength_ne_zero hv
  refine ⟨fun hm => ⟨?_, ?_, ?_⟩, fun hm => ⟨?_, ?_, ?_⟩⟩ <;>
    simp [Cache.set, Cache.get, Cache.del, Cache.suppressConnectionError,
      hE, hkl, henc, hvl, ho, hm]

theorem cache_C3_witness :
    baseCache.enabled = true ∧ "foo" ≠ "" ∧
    baseCache.config.stringifyForCache "bar" = some "bar" ∧ "bar" ≠ "" ∧
    overrideInvalid none = false ∧ msgIndicatesConnDown connMsg ∧
    Cache.set baseCache [] 0 (some "foo") "bar" none (some connMsg) noScan =
      ⟨.ok none, { baseCache with invalidateOnConnection := true }, []⟩ :=
  ⟨rfl, by decide, rfl, by decide, rfl, by decide,
    ((cache_C3 baseCache [] 0 "foo" "bar" "bar" none connMsg noScan rfl (by decide) rfl
      (by decide) rfl).1 (by decide)).1⟩

/-! C6 -/

/-- C6 (amended): on an enabled Cache with a valid key, when the encoder
yields an absent or empty string, set rejects with the validation error
"value must be a string with length" and performs no store call at all: it
neither writes nor deletes. -/
theorem cache_C6 {T : Type} (c : Cache T) (st : Store) (now : Nat) (k : String) (inst : T)
    (o : Option Int) (cf : Option String) (script : ScanScript)
    (hE : c.enabled = true) (hk : k ≠ "")
    (henc : c.config.stringifyForCache inst = none ∨
      c.config.stringifyForCache inst = some "") :
    Cache.set c st now (some k) inst o cf script =
      ⟨.thrown "value must be a string with length", c, st⟩ := by
  have hkl : ¬ k.length = 0 := strLength_ne_zero hk
  rcases henc with h | h <;> simp [Cache.set, hE, hkl, h, empty_string_length]

/-- C6 counterexample: with an encoder yielding the empty string, set on an
enabled cache rejects and leaves the previously stored namespaced entry in
place, instead of deleting it without failing. -/
theorem cache_C6_cex :
    Cache.set emptyEncCache cexStore 0 (some "k") "x" none none noScan =
      ⟨.thrown "value must be a string with length", emptyEncCache, cexStore⟩ := rfl

theorem cache_C6_witness :
    emptyEncCache.enabled = true ∧ "k" ≠ "" ∧
    (emptyEncCache.config.stringifyForCache "x" = none ∨
      emptyEncCache.config.stringifyForCache "x" = some "") ∧
    Cache.set emptyEncCache [] 0 (some "k") "x" none none noScan =
      ⟨.thrown "value must be a string with length", emptyEncCache, []⟩ :=
  ⟨rfl, by decide, Or.inr rfl,
    cache_C6 emptyEncCache [] 0 "k" "x" none none noScan rfl (by decide) (Or.inr rfl)⟩

/-! C7 -/

/-- C7 (amended): on an ENABLED Cache, each of set, get and del with a key
argument that is not a non-empty string rejects with the validation error
"key must be a string with length" before any store interaction; while
disabled the operations return immediately without validating the key. -/
theorem cache_C7 {T : Type} (c : Cache T) (st : Store) (now : Nat) (key : Option String)
    (inst : T) (o : Option Int) (cf : Option String) (script : ScanScript)
    (hE : c.enabled = true) (hbad : key = none ∨ key = some "") :
    Cache.set c st now key inst o cf script =
      ⟨.thrown "key must be a string with length", c, st⟩ ∧
    Cache.get c st now key cf script =
      ⟨.thrown "key must be a string with length", c, st⟩ ∧
    Cache.del c st key cf script =
      ⟨.thrown "key must be a string with length", c, st⟩ := by
  rcases hbad with h | h <;> subst h <;>
    exact ⟨by simp [Cache.set, hE, empty_string_length],
      by simp [Cache.get, hE, empty_string_length],
      by simp [Cache.del, hE, empty_string_length]⟩

/-- C7 counterexample: on a DISABLED Cache a get with the empty-string key
fulfils with absent instead of rejecting with a validation error, because
the enabled check precedes the key validation in src/cache.ts. -/
theorem cache_C7_cex :
    Cache.get (Cache.disable baseCache) [] 0 (some "") none noScan =
      ⟨.ok none, Cache.disable baseCache, []⟩ := rfl

theorem cache_C7_witness :
    baseCache.enabled = true ∧ ((none : Option String) = none ∨ (none : Option String) = some "") ∧
    Cache.get baseCache [] 0 none none noScan =
      ⟨.thrown "key must be a string with length", baseCache, []⟩ :=
  ⟨rfl, Or.inl rfl, (cache_C7 baseCache [] 0 none "x" none none noScan rfl (Or.inl rfl)).2.1⟩

/-- A live entry whose key extends `p` contributes its key to the scan
result. -/
theorem mem_liveKeysWithPre {st : Store} {now : Nat} {p : String} {e : Entry}
    (he : e ∈ st) (hlive : now < e.expireAt) (hpre : p.data <+: e.key.data) :
    e.key ∈ Store.liveKeysWithPre st now p := by
  unfold Store.liveKeysWithPre
  rw [List.mem_map]
  refine ⟨e, ?_, rfl⟩
  rw [List.mem_filter]
  exact ⟨he, by simp [hlive, hpre]⟩

/-- Deleting every live scanned key of the namespace leaves no readable key
under the namespace at any later instant: auxiliary form over a sublist. -/
theorem store_get_delKeys_live (st : Store) (now t : Nat) (p k : String) (ht : now ≤ t) :
    ∀ st2 : Store, (∀ e ∈ st2, e ∈ st) →
      Store.get (Store.delKeys st2 (Store.liveKeysWithPre st now p)) t (p ++ k) = none := by
  intro st2
  induction st2 with
  | nil => intro _; rfl
  | cons e rest ih =>
    intro hsub
    have he : e ∈ st := hsub e (List.mem_cons_self _ _)
    have hrest : ∀ x ∈ rest, x ∈ st := fun x hx => hsub x (List.mem_cons_of_mem _ hx)
    unfold Store.delKeys
    rw [List.filter_cons]
    by_cases hmem : e.key ∈ Store.liveKeysWithPre st now p
    · rw [if_neg (by simp [hmem])]
      exact ih hrest
    · rw [if_pos (by simp [hmem])]
      by_cases hk2 : e.key = p ++ k
      · have hexp : ¬ now < e.expireAt := by
          intro hlive
          exact hmem (mem_liveKeysWithPre he hlive
            (by rw [hk2, String.data_append]; exact List.prefix_append _ _))
        have hexp2 : ¬ t < e.expireAt := fun hlt => hexp (Nat.lt_of_le_of_lt ht hlt)
        simp only [Store.get]
        rw [if_pos hk2, if_neg hexp2]
      · simp only [Store.get]
        rw [if_neg hk2]
        exact ih hrest

/-- Deleting every live scanned key of the namespace leaves no readable key
under the namespace at any later instant. -/
theorem store_get_after_wipe (st : Store) (now t : Nat) (p k : String) (ht : now ≤ t) :
    Store.get (Store.delKeys st (Store.liveKeysWithPre st now p)) t (p ++ k) = none :=
  store_get_delKeys_live st now t p k ht st (fun _ h => h)

/-- A scan whose data events all delete successfully and which ends with an
error event rejects with that error. -/
theorem runRounds_ok_outcome (st : Store) (rounds : List (List String × Option String))
    (msg : String) (hok : ∀ r ∈ rounds, r.2 = none) :
    (runRounds st rounds (some msg)).outcome = .failed msg := by
  induction rounds generalizing st with
  | nil => rfl
  | cons r rest ih =>
    obtain ⟨keys, o⟩ := r
    have ho : o = none := hok (keys, o) (List.mem_cons_self _ _)
    subst ho
    simp only [runRounds]
    exact ih _ (fun r hr => hok r (List.mem_cons_of_mem _ hr))

/-- As soon as one data round's bulk delete rejects, the promise never
settles, whatever comes later in the stream. -/
theorem runRounds_hung (st : Store) (rounds rest : List (List String × Option String))
    (keys : List String) (m : String) (term : Option String)
    (hok : ∀ r ∈ rounds, r.2 = none) :
    (runRounds st (rounds ++ (keys, some m) :: rest) term).outcome = .hung := by
  induction rounds generalizing st with
  | nil => rfl
  | cons r rs ih =>
    obtain ⟨ks, o⟩ := r
    have ho : o = none := hok (ks, o) (List.mem_cons_self _ _)
    subst ho
    simp only [List.cons_append, runRounds]
    exact ih _ (fun r hr => hok r (List.mem_cons_of_mem _ hr))

/-! C1 -/

/-- C1: on an enabled Cache whose store calls succeed (so whose connection
fault flag is unset, since only a failing call can set it), for a non-empty
key and a value the codec encodes to a non-empty string and decodes back,
set fulfils and writes the encoded value with the namespace ttl, and a get
of the same key at any instant before the ttl expiry fulfils with the
original value. -/
theorem cache_C1 {T : Type} (c : Cache T) (st : Store) (now t : Nat) (k s : String) (v : T)
    (script script₂ : ScanScript)
    (hE : c.enabled = true) (hP : c.invalidateOnConnection = false)
    (hk : k ≠ "") (henc : c.config.stringifyForCache v = some s) (hs : s ≠ "")
    (hdec : c.config.parseFromCache s = .ok v)
    (ht : t < now + c.config.ttlSec) :
    Cache.set c st now (some k) v none none script =
      ⟨.ok none, c, Store.setex st now c.config.ttlSec (c.config.pre ++ k) s⟩ ∧
    (Cache.get c (Store.setex st now c.config.ttlSec (c.config.pre ++ k) s) t (some k)
        none script₂).ret = .ok (some v) := by
  have hkl : ¬ k.length = 0 := strLength_ne_zero hk
  have hsl : ¬ s.length = 0 := strLength_ne_zero hs
  constructor
  · simp [Cache.set, Cache.invalidateOnReconnection, hE, hP, hkl, henc, hsl,
      overrideInvalid, effectiveTtl]
  · simp [Cache.get, Cache.invalidateOnReconnection, hE, hP, hkl,
      store_get_setex_self, ht, hsl, hdec]

theorem cache_C1_witness :
    baseCache.enabled = true ∧ baseCache.invalidateOnConnection = false ∧ "foo" ≠ "" ∧
    baseCache.config.stringifyForCache "bar" = some "bar" ∧ "bar" ≠ "" ∧
    baseCache.config.parseFromCache "bar" = .ok "bar" ∧ 5 < 0 + baseCache.config.ttlSec ∧
    (Cache.get baseCache
        (Store.setex [] 0 baseCache.config.ttlSec (baseCache.config.pre ++ "foo") "bar") 5
        (some "foo") none noScan).ret = .ok (some "bar") :=
  ⟨rfl, rfl, by decide, rfl, by decide, rfl, by decide,
    (cache_C1 baseCache [] 0 5 "foo" "bar" "bar" noScan noScan rfl rfl (by decide) rfl
      (by decide) rfl (by decide)).2⟩

/-! C4 -/

/-- C4: while enabled is false every operation is a strict no-op: set, del
and invalidate leave the store and the cache state untouched and fulfil with
void (invalidate issues no delete call), and get fulfils with absent; in
particular a set performed while disabled is never observable: after
enable(), a get of that key still yields absent whenever the store holds no
live entry for it. -/
theorem cache_C4 {T : Type} (c : Cache T) (st : Store) (now t : Nat) (key : Option String)
    (inst : T) (o : Option Int) (cf : Option String) (script script₂ : ScanScript)
    (k : String)
    (hD : c.enabled = false) (hP : c.invalidateOnConnection = false) (hk : k ≠ "")
    (habs : Store.get st t (c.config.pre ++ k) = none) :
    Cache.set c st now key inst o cf script = ⟨.ok none, c, st⟩ ∧
    Cache.get c st now key cf script = ⟨.ok none, c, st⟩ ∧
    Cache.del c st key cf script = ⟨.ok none, c, st⟩ ∧
    Cache.invalidate c st script = ⟨.done, st, []⟩ ∧
    (Cache.get (Cache.enable ((Cache.set c st now (some k) inst o cf script).cache))
        ((Cache.set c st now (some k) inst o cf script).store) t (some k) none
        script₂).ret = .ok none := by
  have hkl : ¬ k.length = 0 := strLength_ne_zero hk
  have h1 : Cache.set c st now (some k) inst o cf script = ⟨.ok none, c, st⟩ := by
    simp [Cache.set, hD]
  refine ⟨by simp [Cache.set, hD], by simp [Cache.get, hD], by simp [Cache.del, hD],
    by simp [Cache.invalidate, hD], ?_⟩
  rw [h1]
  simp [Cache.get, Cache.enable, Cache.invalidateOnReconnection, hP, hkl, habs]

theorem cache_C4_witness :
    (Cache.disable baseCache).enabled = false ∧
    (Cache.disable baseCache).invalidateOnConnection = false ∧ "foo" ≠ "" ∧
    Store.get [] 3 ((Cache.disable baseCache).config.pre ++ "foo") = none ∧
    Cache.set (Cache.disable baseCache) [] 0 (some "foo") "bar" none none noScan =
      ⟨.ok none, Cache.disable baseCache, []⟩ ∧
    (Cache.get
        (Cache.enable ((Cache.set (Cache.disable baseCache) [] 0 (some "foo") "bar" none
          none noScan).cache))
        ((Cache.set (Cache.disable baseCache) [] 0 (some "foo") "bar" none none
          noScan).store) 3 (some "foo") none noScan).ret = .ok none :=
  ⟨rfl, rfl, by decide, rfl,
    (cache_C4 (Cache.disable baseCache) [] 0 3 (some "foo") "bar" none none noScan noScan
      "foo" rfl rfl (by decide) rfl).1,
    (cache_C4 (Cache.disable baseCache) [] 0 3 (some "foo") "bar" none none noScan noScan
      "foo" rfl rfl (by decide) rfl).2.2.2.2⟩

/-! C10 -/

/-- C10: on an enabled Cache with no pending connection fault, a valid key
and a successful read, when the raw stored value is absent or the empty
string, get fulfils with absent; and the decoder is only ever applied to a
non-empty stored string: two decode functions agreeing on all non-empty
strings give observably identical get behaviour for every store, call
outcome and scan script. -/
theorem cache_C10 {T : Type} (c : Cache T) (st : Store) (now : Nat) (k : String)
    (cf : Option String) (script : ScanScript) (p₁ p₂ : String → Except String T)
    (hE : c.enabled = true) (hP : c.invalidateOnConnection = false) (hk : k ≠ "")
    (hagree : ∀ s, s ≠ "" → p₁ s = p₂ s) :
    ((Store.get st now (c.config.pre ++ k) = none ∨
        Store.get st now (c.config.pre ++ k) = some "") →
      (Cache.get c st now (some k) none script).ret = .ok none) ∧
    sameObs (Cache.get (Cache.withParse c p₁) st now (some k) cf script)
      (Cache.get (Cache.withParse c p₂) st now (some k) cf script) := by
  have hkl : ¬ k.length = 0 := strLength_ne_zero hk
  constructor
  · intro hraw
    rcases hraw with h | h <;>
      simp [Cache.get, Cache.invalidateOnReconnection, hE, hP, hkl, h, empty_string_length]
  · cases cf with
    | some msg =>
      by_cases hm : msgIndicatesConnDown msg <;>
        simp [Cache.get, Cache.withParse, Cache.suppressConnectionError, hE, hkl, hm, sameObs]
    | none =>
      cases hraw : Store.get st now (c.config.pre ++ k) with
      | none =>
        simp [Cache.get, Cache.withParse, Cache.invalidateOnReconnection, hE, hP, hkl,
          hraw, sameObs]
      | some s =>
        by_cases hsl : s.length = 0
        · simp [Cache.get, Cache.withParse, Cache.invalidateOnReconnection, hE, hP, hkl,
            hraw, hsl, sameObs]
        · have hs : s ≠ "" := fun h0 => hsl (by simp [h0, empty_string_length])
          have hps := hagree s hs
          cases hp : p₂ s with
          | ok t0 =>
            simp [Cache.get, Cache.withParse, Cache.invalidateOnReconnection, hE, hP,
              hkl, hraw, hsl, hps, hp, sameObs]
          | error m =>
            by_cases hm : msgIndicatesConnDown m <;>
              simp [Cache.get, Cache.withParse, Cache.invalidateOnReconnection,
                Cache.suppressConnectionError, hE, hP, hkl, hraw, hsl, hps, hp, hm, sameObs]

theorem cache_C10_witness :
    baseCache.enabled = true ∧ baseCache.invalidateOnConnection = false ∧ "foo" ≠ "" ∧
    Store.get [] 0 (baseCache.config.pre ++ "foo") = none ∧
    (Cache.get baseCache [] 0 (some "foo") none noScan).ret = .ok none ∧
    sameObs (Cache.get (Cache.withParse baseCache idDec) [] 0 (some "foo") none noScan)
      (Cache.get (Cache.withParse baseCache idDec) [] 0 (some "foo") none noScan) :=
  ⟨rfl, rfl, by decide, rfl,
    (cache_C10 baseCache [] 0 "foo" none noScan idDec idDec rfl rfl (by decide)
      (fun _ _ => rfl)).1 (Or.inl rfl),
    (cache_C10 baseCache [] 0 "foo" none noScan idDec idDec rfl rfl (by decide)
      (fun _ _ => rfl)).2⟩

/-! C8 -/

/-- C8: evaluation of invalidate at the failing input.  When the scan stream
emits one data event carrying an empty batch, the code nevertheless issues a
bulk delete call with zero keys: the recorded del calls are exactly one call
with the empty key list, contradicting the requirement that no delete be
issued for an empty batch. -/
theorem cache_C8 :
    Cache.invalidate baseCache [] ⟨[([], none)], none⟩ =
      ⟨.done, [], [[]]⟩ := rfl

/-! C2 -/

/-- The cache used by witnesses after a suppressed connection failure. -/
def flaggedCache : Cache String := { baseCache with invalidateOnConnection := true }

/-- C2: once a connection-down failure has been suppressed (the
invalidateOnConnection flag is set), with resetOnReconnection = true the
next scalar operation whose store call succeeds clears the flag, wipes the
whole namespace through a fault-free scan, and fulfils with void or absent
instead of its own result, so that afterwards no key of the namespace is
readable; with resetOnReconnection = false no wipe occurs: the operation
performs only its own store effect and leaves the cache state, flag
included, unchanged. -/
theorem cache_C2 {T : Type} (c : Cache T) (st : Store) (now t : Nat) (k v : String)
    (inst : T) (script : ScanScript)
    (hE : c.enabled = true) (hP1 : c.invalidateOnConnection = true) (hk : k ≠ "")
    (henc : c.config.stringifyForCache inst = some v) (hv : v ≠ "") (ht : now ≤ t) :
    (c.config.resetOnReconnection = true →
      (Cache.set c st now (some k) inst none none
          (honestScript (Store.setex st now c.config.ttlSec (c.config.pre ++ k) v) now
            c.config.pre) =
        ⟨.ok none, { c with invalidateOnConnection := false },
          Store.delKeys (Store.setex st now c.config.ttlSec (c.config.pre ++ k) v)
            (Store.liveKeysWithPre
              (Store.setex st now c.config.ttlSec (c.config.pre ++ k) v) now
              c.config.pre)⟩ ∧
        (∀ k2 : String,
          Store.get
            (Store.delKeys (Store.setex st now c.config.ttlSec (c.config.pre ++ k) v)
              (Store.liveKeysWithPre
                (Store.setex st now c.config.ttlSec (c.config.pre ++ k) v) now
                c.config.pre)) t (c.config.pre ++ k2) = none)) ∧
      (Cache.get c st now (some k) none (honestScript st now c.config.pre) =
        ⟨.ok none, { c with invalidateOnConnection := false },
          Store.delKeys st (Store.liveKeysWithPre st now c.config.pre)⟩ ∧
        (∀ k2 : String,
          Store.get (Store.delKeys st (Store.liveKeysWithPre st now c.config.pre)) t
            (c.config.pre ++ k2) = none)) ∧
      (Cache.del c st (some k) none
          (honestScript (Store.del st (c.config.pre ++ k)) now c.config.pre) =
        ⟨.ok none, { c with invalidateOnConnection := false },
          Store.delKeys (Store.del st (c.config.pre ++ k))
            (Store.liveKeysWithPre (Store.del st (c.config.pre ++ k)) now
              c.config.pre)⟩ ∧
        (∀ k2 : String,
          Store.get
            (Store.delKeys (Store.del st (c.config.pre ++ k))
              (Store.liveKeysWithPre (Store.del st (c.config.pre ++ k)) now
                c.config.pre)) t (c.config.pre ++ k2) = none))) ∧
    (c.config.resetOnReconnection = false →
      Cache.set c st now (some k) inst none none script =
        ⟨.ok none, c, Store.setex st now c.config.ttlSec (c.config.pre ++ k) v⟩ ∧
      (Cache.get c st now (some k) none script).cache = c ∧
      (Cache.get c st now (some k) none script).store = st ∧
      Cache.del c st (some k) none script =
        ⟨.ok none, c, Store.del st (c.config.pre ++ k)⟩) := by
  have hkl : ¬ k.length = 0 := strLength_ne_zero hk
  have hvl : ¬ v.length = 0 := strLength_ne_zero hv
  have hov : overrideInvalid none = false := rfl
  constructor
  · intro hR
    refine ⟨⟨?_, fun k2 => store_get_after_wipe _ now t _ k2 ht⟩,
      ⟨?_, fun k2 => store_get_after_wipe _ now t _ k2 ht⟩,
      ⟨?_, fun k2 => store_get_after_wipe _ now t _ k2 ht⟩⟩
    · simp [Cache.set, Cache.invalidateOnReconnection, Cache.invalidate, honestScript,
        runRounds, hE, hP1, hR, hkl, henc, hvl, effectiveTtl, hov]
    · simp [Cache.get, Cache.invalidateOnReconnection, Cache.invalidate, honestScript,
        runRounds, hE, hP1, hR, hkl]
    · simp [Cache.del, Cache.invalidateOnReconnection, Cache.invalidate, honestScript,
        runRounds, hE, hP1, hR, hkl]
  · intro hR
    have hhookAny : ∀ st3 : Store,
        Cache.invalidateOnReconnection c st3 script = ⟨.passed, c, st3⟩ := fun st3 => by
      simp [Cache.invalidateOnReconnection, hR]
    have hcc : { config := c.config, enabled := true, invalidateOnConnection := true } = c := by
      obtain ⟨cfg, en, fl⟩ := c
      have h1 : en = true := hE
      have h2 : fl = true := hP1
      subst h1; subst h2; rfl
    have hget : (Cache.get c st now (some k) none script).cache = c ∧
        (Cache.get c st now (some k) none script).store = st := by
      cases hraw : Store.get st now (c.config.pre ++ k) with
      | none => simp [Cache.get, hE, hkl, hraw, hhookAny]
      | some s =>
        by_cases hsl : s.length = 0
        · simp [Cache.get, hE, hkl, hraw, hhookAny, hsl]
        · cases hp : c.config.parseFromCache s with
          | ok t0 => simp [Cache.get, hE, hkl, hraw, hhookAny, hsl, hp]
          | error m =>
            by_cases hm : msgIndicatesConnDown m
            · simp [Cache.get, Cache.suppressConnectionError, hE, hkl, hraw, hhookAny,
                hsl, hp, hm, hcc]
            · simp [Cache.get, Cache.suppressConnectionError, hE, hkl, hraw, hhookAny,
                hsl, hp, hm]
    refine ⟨?_, hget.1, hget.2, ?_⟩
    · simp [Cache.set, hE, hkl, henc, hvl, effectiveTtl, hov, hhookAny]
    · simp [Cache.del, hE, hkl, hhookAny]

theorem cache_C2_witness :
    flaggedCache.enabled = true ∧ flaggedCache.invalidateOnConnection = true ∧
    ("foo" : String) ≠ "" ∧ flaggedCache.config.resetOnReconnection = true ∧
    Cache.get flaggedCache cexStore 0 (some "foo") none
        (honestScript cexStore 0 flaggedCache.config.pre) =
      ⟨.ok none, { flaggedCache with invalidateOnConnection := false },
        Store.delKeys cexStore
          (Store.liveKeysWithPre cexStore 0 flaggedCache.config.pre)⟩ ∧
    Store.get (Store.delKeys cexStore
        (Store.liveKeysWithPre cexStore 0 flaggedCache.config.pre)) 0
      (flaggedCache.config.pre ++ "k") = none :=
  ⟨rfl, rfl, by decide, rfl,
    ((cache_C2 flaggedCache cexStore 0 0 "foo" "bar" "bar" noScan rfl rfl (by decide) rfl
      (by decide) (Nat.le_refl 0)).1 rfl).2.1.1,
    ((cache_C2 flaggedCache cexStore 0 0 "foo" "bar" "bar" noScan rfl rfl (by decide) rfl
      (by decide) (Nat.le_refl 0)).1 rfl).2.1.2 "k"⟩

/-! C9 -/

/-- C9 (amended): invalidate propagates every error signalled by the scan
stream to its caller, whatever its message (connection-down errors
included, with no suppression); an error raised by the bulk delete of a
batch, however, is not propagated: the invalidate promise never settles. -/
theorem cache_C9 {T : Type} (c : Cache T) (st : Store)
    (rounds rest : List (List String × Option String)) (keys : List String)
    (msg m : String) (term : Option String)
    (hE : c.enabled = true) (hok : ∀ r ∈ rounds, r.2 = none) :
    (Cache.invalidate c st ⟨rounds, some msg⟩).outcome = .failed msg ∧
    (Cache.invalidate c st ⟨rounds ++ (keys, some m) :: rest, term⟩).outcome = .hung := by
  constructor
  · rw [Cache.invalidate, if_neg (by simp [hE])]
    exact runRounds_ok_outcome st rounds msg hok
  · rw [Cache.invalidate, if_neg (by simp [hE])]
    exact runRounds_hung st rounds rest keys m term hok

/-- C9 counterexample: when the bulk delete of a scanned batch rejects with
the error "boom", the invalidate call does not fail with that error — its
promise never settles — so delete errors are not propagated to the caller. -/
theorem cache_C9_cex :
    (Cache.invalidate baseCache cexStore ⟨[(["x"], some "boom")], none⟩).outcome =
      .hung ∧
    (Cache.invalidate baseCache cexStore ⟨[(["x"], some "boom")], none⟩).outcome ≠
      .failed "boom" :=
  ⟨rfl, by decide⟩

theorem cache_C9_witness :
    baseCache.enabled = true ∧
    (Cache.invalidate baseCache cexStore ⟨[(["a"], none)], some "scan broke"⟩).outcome =
      .failed "scan broke" ∧
    (Cache.invalidate baseCache cexStore
        ⟨[(["a"], none), (["b"], some "boom")], none⟩).outcome = .hung :=
  ⟨rfl,
    (cache_C9 baseCache cexStore [(["a"], none)] [] ["b"] "scan broke" "boom" none rfl
      (by decide)).1,
    (cache_C9 baseCache cexStore [(["a"], none)] [] ["b"] "scan broke" "boom" none rfl
      (by decide)).2⟩

/-! C5 -/

/-- Splitting lemma for concatenations around a terminator segment: when the
terminator occurs in `A₂ ++ Tm` only as its final segment and `A₁` is at
most as long as `A₂`, equal concatenations force equal first components. -/
theorem eq_append_term_split (A₁ A₂ B₁ B₂ Tm : List Char)
    (hlen : A₁.length ≤ A₂.length)
    (h2 : ∀ i < A₂.length, ¬ Tm <+: (A₂ ++ Tm).drop i)
    (heq : A₁ ++ (Tm ++ B₁) = A₂ ++ (Tm ++ B₂)) :
    A₁ = A₂ := by
  have e1 : (A₁ ++ (Tm ++ B₁)).take (A₂.length + Tm.length)
      = A₁ ++ (Tm ++ B₁.take (A₂.length - A₁.length)) := by
    rw [List.take_append_eq_append_take,
      List.take_of_length_le (le_trans hlen (Nat.le_add_right _ _))]
    congr 1
    rw [List.take_append_eq_append_take,
      List.take_of_length_le (by omega : Tm.length ≤ A₂.length + Tm.length - A₁.length)]
    congr 2
    omega
  have e2 : (A₂ ++ (Tm ++ B₂)).take (A₂.length + Tm.length) = A₂ ++ Tm := by
    rw [List.take_append_eq_append_take,
      List.take_of_length_le (Nat.le_add_right _ _)]
    congr 1
    rw [List.take_append_eq_append_take,
      List.take_of_length_le (by omega : Tm.length ≤ A₂.length + Tm.length - A₂.length)]
    rw [(by omega : A₂.length + Tm.length - A₂.length - Tm.length = 0), List.take_zero,
      List.append_nil]
  have hstar : A₂ ++ Tm = A₁ ++ (Tm ++ B₁.take (A₂.length - A₁.length)) := by
    rw [← e2, ← heq, e1]
  by_cases hlt : A₁.length < A₂.length
  · exfalso
    apply h2 A₁.length hlt
    rw [hstar, List.drop_left]
    exact List.prefix_append _ _
  · have hd0 : A₂.length - A₁.length = 0 := by omega
    rw [hd0, List.take_zero, List.append_nil] at hstar
    exact (List.append_cancel_right hstar).symm

/-- C5 (amended): the scalar effective-key mapping is injective over
non-empty prefixes in which the terminator occurs, within
prefix ++ PRE_TERMINATOR, only as the final segment — the bare requirement
that the prefix not contain the terminator is not enough, because the
terminator overlaps itself. -/
theorem cache_C5 (p₁ p₂ k₁ k₂ : String)
    (_hp₁ : p₁ ≠ "") (_hp₂ : p₂ ≠ "") (_hk₁ : k₁ ≠ "") (_hk₂ : k₂ ≠ "")
    (h₁ : termOnlyAtEnd p₁) (h₂ : termOnlyAtEnd p₂)
    (heq : effectiveScalarKey p₁ k₁ = effectiveScalarKey p₂ k₂) :
    p₁ = p₂ ∧ k₁ = k₂ := by
  have hd : p₁.data ++ (PRE_TERMINATOR.data ++ k₁.data)
      = p₂.data ++ (PRE_TERMINATOR.data ++ k₂.data) := by
    have h := congrArg String.data heq
    simp only [effectiveScalarKey, String.data_append, List.append_assoc] at h
    exact h
  have hp : p₁.data = p₂.data := by
    rcases le_total p₁.data.length p₂.data.length with hle | hle
    · exact eq_append_term_split _ _ _ _ _ hle h₂ hd
    · exact (eq_append_term_split _ _ _ _ _ hle h₁ hd.symm).symm
  refine ⟨String.ext hp, ?_⟩
  apply String.ext
  rw [hp] at hd
  exact List.append_cancel_left (List.append_cancel_left hd)

/-- C5 counterexample: two distinct (prefix, key) pairs, with non-empty
prefixes that do not contain the reserved terminator and non-empty keys,
which map to the same store key — the terminator overlaps itself, so the
claimed injectivity fails. -/
theorem cache_C5_cex :
    effectiveScalarKey "a" "<<$$PRE_TERM$$>>--X" =
      effectiveScalarKey "a--<<$$PRE_TERM$$>>" "X" ∧
    ("a" : String) ≠ "" ∧ ("a--<<$$PRE_TERM$$>>" : String) ≠ "" ∧
    ("<<$$PRE_TERM$$>>--X" : String) ≠ "" ∧ ("X" : String) ≠ "" ∧
    ¬ containsTerminator "a" ∧ ¬ containsTerminator "a--<<$$PRE_TERM$$>>" ∧
    ¬ (("a" : String) = "a--<<$$PRE_TERM$$>>" ∧
      ("<<$$PRE_TERM$$>>--X" : String) = "X") := by
  refine ⟨?_, ?_, ?_, ?_, ?_, ?_, ?_, ?_⟩ <;> decide

theorem cache_C5_witness :
    ("a" : String) ≠ "" ∧ ("x" : String) ≠ "" ∧ termOnlyAtEnd "a" ∧
    effectiveScalarKey "a" "x" = effectiveScalarKey "a" "x" ∧
    (("a" : String) = "a" ∧ ("x" : String) = "x") :=
  ⟨by decide, by decide, by decide, rfl,
    cache_C5 "a" "a" "x" "x" (by decide) (by decide) (by decide) (by decide) (by decide)
      (by decide) rfl⟩

end RedisSpec
